import Mathlib

/-!
Verification of the BLE_protocols production/protocol engine.

Shallow embedding of `production.cpp` / `production.h` (rule store, event
matcher, production engine), `protocol.h` (the PROTOCOL / RUN_PRODUCTION
macro expansion) and `protocol.cpp` (current-protocol dispatcher).

Rule actions, event conditions and until predicates are C function
pointers; conditions and until predicates are modelled as Lean functions
on the event, while actions are modelled as opaque identifiers whose
invocations are recorded in a trace (the engine never reads an event
action's return value).  The millisecond clock `millis()` is passed as an
explicit `now : Nat` argument.
-/

namespace BLEProtocols

/-- `check_t` from production.h:
`typedef enum {no_check, event_check, le_meta_event_check, ecode,
reset_reason, procedure_complete, condition_check} check_t;` -/
inductive check_t
  | no_check
  | event_check
  | le_meta_event_check
  | ecode
  | reset_reason
  | procedure_complete
  | condition_check
deriving DecidableEq, Repr

/-- An HCI event packet: the top-level event code byte `evt` and the raw
payload bytes `data` (the `data[]` flexible member of `hci_event_pckt`). -/
structure hci_event_pckt where
  evt : Nat
  data : List Nat
deriving DecidableEq, Repr

/-- A transport packet (`hci_uart_pckt`): a packet-type byte and, when it
is an event packet, the event it carries. -/
structure hci_uart_pckt where
  ptype : Nat
  event : hci_event_pckt
deriving DecidableEq, Repr

/-- `HCI_EVENT_PKT` from the STBLE event ABI (HCI UART packet indicator
for an event packet). -/
def HCI_EVENT_PKT : Nat := 4

/-- `EVT_LE_META_EVENT` top-level event code (STBLE ABI). -/
def EVT_LE_META_EVENT : Nat := 62

/-- `EVT_VENDOR` top-level event code (STBLE ABI). -/
def EVT_VENDOR : Nat := 255

/-- `EVT_BLUE_HAL_INITIALIZED` vendor event code (STBLE ABI). -/
def EVT_BLUE_HAL_INITIALIZED : Nat := 1

/-- `EVT_BLUE_GAP_PROCEDURE_COMPLETE` vendor event code (STBLE ABI). -/
def EVT_BLUE_GAP_PROCEDURE_COMPLETE : Nat := 1031

/-- The `subevent` byte read through the `evt_le_meta_event` cast: byte 0
of the event payload. -/
def subeventOf (e : hci_event_pckt) : Nat := e.data.getD 0 0

/-- The 16-bit `ecode` read through the `evt_blue_aci` cast: the
little-endian 16-bit value at bytes 0..1 of the event payload. -/
def ecodeOf (e : hci_event_pckt) : Nat :=
  e.data.getD 0 0 + 256 * e.data.getD 1 0

/-- The `reason_code` read through the `evt_hal_initialized` cast.  The
source casts `event_pckt->data` itself (not `evt_blue->data`), so this is
byte 0 of the event payload. -/
def reasonOf (e : hci_event_pckt) : Nat := e.data.getD 0 0

/-- The `procedure_code` read through the `evt_gap_procedure_complete`
cast of `evt_blue->data`: byte 2 of the event payload. -/
def procedureCodeOf (e : hci_event_pckt) : Nat := e.data.getD 2 0

/-- `check4event` from production.cpp: the event matcher.  Mirrors the
switch over `check_type`; `no_check` and `condition_check` fall to the
default branch (no match). -/
def check4event (e : hci_event_pckt) (check_type : check_t) (event_code : Nat) : Bool :=
  match check_type with
  | .event_check => decide (e.evt = event_code)
  | .le_meta_event_check =>
      decide (e.evt = EVT_LE_META_EVENT) && decide (subeventOf e = event_code)
  | .reset_reason =>
      decide (e.evt = EVT_VENDOR) && decide (ecodeOf e = EVT_BLUE_HAL_INITIALIZED)
        && decide (reasonOf e = event_code)
  | .ecode => decide (ecodeOf e = event_code)
  | .procedure_complete =>
      decide (e.evt = EVT_VENDOR) && decide (ecodeOf e = EVT_BLUE_GAP_PROCEDURE_COMPLETE)
        && decide (procedureCodeOf e = event_code)
  | _ => false

/-- `rule_t` from production.cpp.  `event_condition` is the condition
function pointer (used when `check_type = condition_check`);
`event_action` is the action function pointer, modelled as an opaque
action identifier (`none` = NULL). `action_args` is folded into the
opaque action. -/
structure rule_t where
  check_type : check_t
  event_code : Nat
  event_condition : Option (hci_event_pckt → Bool)
  event_action : Option Nat

/-- The zero-initialised rule (C static arrays start zeroed). -/
def defaultRule : rule_t := ⟨.no_check, 0, none, none⟩

/-- The matching half of `fire_rule`: condition rules call their
predicate (NULL predicate never fires); all other kinds go through
`check4event`. -/
def ruleFires (r : rule_t) (e : hci_event_pckt) : Bool :=
  match r.check_type with
  | .condition_check =>
      match r.event_condition with
      | some c => c e
      | none => false
  | ct => check4event e ct r.event_code

/-- One of the three fixed-capacity rule arrays of production.cpp,
with its count (`num_*_rules`) and iteration cursor
(`current_*_rule`).  `data` is the backing storage; indices at or above
`MAX_RULES` are out of bounds of the 20-entry C array. -/
structure RuleArray where
  data : Nat → rule_t
  num : Nat
  cur : Nat

/-- The zero-initialised rule array. -/
def emptyRules : RuleArray := ⟨fun _ => defaultRule, 0, 0⟩

/-- `MAX_RULES` from production.h. -/
def MAX_RULES : Nat := 20

/-- `rules_clear` / `exclusive_rules_clear` / `global_rules_clear`:
only the count is reset. -/
def rules_clear (a : RuleArray) : RuleArray := { a with num := 0 }

/-- `new_rule` / `new_exclusive_rule` / `new_global_rule` from
production.cpp: the capacity guard tests the iteration cursor
`current_rule` against `MAX_RULES` (exactly as the source does), and on
success hands out slot `num` and increments the count. -/
def new_rule (a : RuleArray) : Option Nat × RuleArray :=
  if a.cur = MAX_RULES then (none, a)
  else (some a.num, { a with num := a.num + 1 })

/-- Writing a rule into a slot of the backing array. -/
def write_rule (a : RuleArray) (i : Nat) (r : rule_t) : RuleArray :=
  { a with data := fun j => if j = i then r else a.data j }

/-- `expect`-style append: `rule_t * r = new_rule(); set_expect(r, ...)`.
`set_expect` does nothing when `new_rule` returned NULL. -/
def add_rule (a : RuleArray) (r : rule_t) : RuleArray :=
  match new_rule a with
  | (none, a1) => a1
  | (some i, a1) => write_rule a1 i r

/-- Which rule set a fired rule came from. -/
inductive RSet
  | nrm
  | exc
  | glb
deriving DecidableEq, Repr

/-- A trace entry: rule at index `idx` of set `set` fired (its match
succeeded); `action` is the invoked action identifier, `none` when the
rule's action pointer is NULL (fired but nothing invoked). -/
structure Fired where
  set : RSet
  idx : Nat
  action : Option Nat
deriving DecidableEq, Repr

/-- The exclusive/global loop of `run_production`: iterate from cursor
`cur` while the set is not exhausted and no rule has fired; stop after
the first firing rule.  `fuel` is the number of remaining entries
(`num - cur`).  Returns (trace, fired?, final cursor). -/
def firstMatchLoop (tag : RSet) (data : Nat → rule_t) (e : hci_event_pckt) :
    Nat → Nat → List Fired × Bool × Nat
  | 0, cur => ([], false, cur)
  | fuel + 1, cur =>
      let r := data cur
      if ruleFires r e then ([⟨tag, cur, r.event_action⟩], true, cur + 1)
      else firstMatchLoop tag data e fuel (cur + 1)

/-- The normal-rules loop of `run_production`: iterate the whole set,
firing every matching rule.  Returns (trace, any fired?). -/
def allMatchLoop (tag : RSet) (data : Nat → rule_t) (e : hci_event_pckt) :
    Nat → Nat → List Fired × Bool
  | 0, _ => ([], false)
  | fuel + 1, cur =>
      let r := data cur
      let rest := allMatchLoop tag data e fuel (cur + 1)
      if ruleFires r e then (⟨tag, cur, r.event_action⟩ :: rest.1, true)
      else rest

/-- The pending `perform` action of production.cpp (`static action_ptr_t
action`), modelled as an identifier plus the boolean the callback would
return when invoked; `action_args` is folded in. -/
structure PerformAction where
  id : Nat
  result : Bool
deriving DecidableEq, Repr

/-- The until condition installed by `until(...)`: either the library's
own `timeout` function (which reads the timeout globals and the clock at
call time) or a user predicate on the event. -/
inductive UntilFn
  | timeoutFn
  | pred (f : hci_event_pckt → Bool)

/-- The file-scope static state of production.cpp. -/
structure ProdState where
  action : Option PerformAction
  normal : RuleArray
  exclusive : RuleArray
  global : RuleArray
  rule_matched : Bool
  until_condition : Option UntilFn
  until_check : check_t
  until_check_event : Nat
  production_start : Nat
  timeout_milliseconds : Nat

/-- The zero-initialised production state. -/
def emptyProd : ProdState :=
  { action := none
    normal := emptyRules
    exclusive := emptyRules
    global := emptyRules
    rule_matched := false
    until_condition := none
    until_check := .no_check
    until_check_event := 0
    production_start := 0
    timeout_milliseconds := 0 }

/-- `timeout` from production.cpp:
`return ( (production_start + timeout_milliseconds) < millis());` -/
def timeout (s : ProdState) (now : Nat) : Bool :=
  decide (s.production_start + s.timeout_milliseconds < now)

/-- Evaluating the installed until condition against the current state,
clock, and event. -/
def evalUntil (u : UntilFn) (s : ProdState) (now : Nat) (e : hci_event_pckt) : Bool :=
  match u with
  | .timeoutFn => timeout s now
  | .pred f => f e

/-- Result of one `run_production` call: the C return value
(0 = production finished, 1 = a rule fired, -1 = nothing fired), the
updated static state, and the trace of fired rules. -/
structure DispatchResult where
  ret : Int
  state : ProdState
  fired : List Fired

/-- The until/termination evaluation at the end of `run_production`
(the negation of `keep_running`): finished when no until is configured
at all, or the installed until condition evaluates true, or the
configured until event matches. -/
def finishedCond (s : ProdState) (now : Nat) (e : hci_event_pckt) : Bool :=
  (s.until_condition.isNone && decide (s.until_check = check_t.no_check))
  || (match s.until_condition with
      | some u => evalUntil u s now e
      | none => false)
  || (!decide (s.until_check = check_t.no_check)
      && check4event e s.until_check s.until_check_event)

/-- `run_production` from production.cpp, translated clause by clause:
non-event packets skip everything and return -1; otherwise the exclusive
loop (first match only), the normal loop (all matches), the global loop
(only if nothing fired yet, first match only), then the until evaluation
and, when finished, the clearing of normal/exclusive rules and both until
configurations. -/
def run_production (s : ProdState) (now : Nat) (pckt : hci_uart_pckt) : DispatchResult :=
  if pckt.ptype ≠ HCI_EVENT_PKT then
    { ret := -1, state := s, fired := [] }
  else
    let e := pckt.event
    let exOut := firstMatchLoop .exc s.exclusive.data e s.exclusive.num 0
    let nrmOut := allMatchLoop .nrm s.normal.data e s.normal.num 0
    let did1 := exOut.2.1 || nrmOut.2
    let glbOut :=
      if did1 then (([] : List Fired), false, s.global.cur)
      else firstMatchLoop .glb s.global.data e s.global.num 0
    let did_rule := did1 || glbOut.2.1
    let firedAll := exOut.1 ++ nrmOut.1 ++ glbOut.1
    let s1 : ProdState :=
      { s with
        exclusive := { s.exclusive with cur := exOut.2.2 }
        normal := { s.normal with cur := s.normal.num }
        global := { s.global with cur := glbOut.2.2 }
        rule_matched := s.rule_matched || did1 }
    let finished := finishedCond s now e
    if finished then
      { ret := 0
        state :=
          { s1 with
            normal := rules_clear s1.normal
            exclusive := rules_clear s1.exclusive
            until_condition := none
            until_check := .no_check
            until_check_event := 0 }
        fired := firedAll }
    else if did_rule then { ret := 1, state := s1, fired := firedAll }
    else { ret := -1, state := s1, fired := firedAll }

/-- `met_expectations` from production.cpp. -/
def met_expectations (s : ProdState) : Bool := s.rule_matched

/-- `run_action_only_once` from production.cpp: invoke and consume the
pending perform; with no pending action, return true.  The third
component records the invocation (the invoked action's id), `none` when
nothing was invoked. -/
def run_action_only_once (s : ProdState) : ProdState × Bool × Option Nat :=
  match s.action with
  | some a => ({ s with action := none }, a.result, some a.id)
  | none => (s, true, none)

/-- `clear_expectations` from production.cpp: clears the normal rules and
resets `rule_matched`. -/
def clear_expectations (s : ProdState) : ProdState :=
  { s with normal := rules_clear s.normal, rule_matched := false }

/-- `clear_exclusive_expectations` from production.cpp. -/
def clear_exclusive_expectations (s : ProdState) : ProdState :=
  { s with exclusive := rules_clear s.exclusive }

/-- `clear_global_expectations` from production.cpp. -/
def clear_global_expectations (s : ProdState) : ProdState :=
  { s with global := rules_clear s.global }

/-- `until_clear` from production.cpp. -/
def until_clear (s : ProdState) : ProdState := { s with until_condition := none }

/-- `until_event_clear` from production.cpp. -/
def until_event_clear (s : ProdState) : ProdState :=
  { s with until_check := .no_check, until_check_event := 0 }

/-- The combined static state of production.cpp and protocol.cpp:
the production state, the `current_protocol` pointer (an opaque protocol
identifier), and the `static uint16_t state` step counter of the
scenario's protocol body (each PROTOCOL-generated function owns one such
counter; the scenarios here involve a single protocol body). -/
structure SysState where
  prod : ProdState
  current_protocol : Option Nat
  protoCounter : Nat

/-- The zero-initialised system state. -/
def emptySys : SysState := { prod := emptyProd, current_protocol := none, protoCounter := 0 }

/-- `clear_current_protocol` from protocol.cpp: clears normal
expectations (and `rule_matched`), exclusive expectations, both until
configurations, and nulls the current protocol. -/
def clear_current_protocol (s : SysState) : SysState :=
  { s with
    prod := until_event_clear (until_clear (clear_exclusive_expectations (clear_expectations s.prod)))
    current_protocol := none }

/-- One configuration call a protocol step's body can make before its
RUN_PRODUCTION, mirroring the production.h API. -/
inductive ConfigOp
  | performOp (a : PerformAction)
  | expectOp (ct : check_t) (code : Nat) (act : Option Nat)
  | expectCondOp (cond : hci_event_pckt → Bool) (act : Option Nat)
  | expectExOp (ct : check_t) (code : Nat) (act : Option Nat)
  | expectExCondOp (cond : hci_event_pckt → Bool) (act : Option Nat)
  | expectGloballyOp (ct : check_t) (code : Nat) (act : Option Nat)
  | expectGloballyCondOp (cond : hci_event_pckt → Bool) (act : Option Nat)
  | untilOp (u : UntilFn)
  | untilEventOp (ct : check_t) (code : Nat)
  | setTimeoutOp (ms : Nat)

/-- The rule built by `set_expect`. -/
def mkEventRule (ct : check_t) (code : Nat) (act : Option Nat) : rule_t :=
  ⟨ct, code, none, act⟩

/-- The rule built by `set_expect_condition`. -/
def mkCondRule (cond : hci_event_pckt → Bool) (act : Option Nat) : rule_t :=
  ⟨.condition_check, 0, some cond, act⟩

/-- Semantics of one configuration call: each case is the corresponding
production.cpp function (`perform`, `expect`, `expect_condition`,
`expect_ex`, `expect_globally`, `until`, `until_event`, `set_timeout`).
`set_timeout` also calls `start_timeout`, stamping the current clock. -/
def applyOp (s : ProdState) (now : Nat) : ConfigOp → ProdState
  | .performOp a => { s with action := some a }
  | .expectOp ct code act => { s with normal := add_rule s.normal (mkEventRule ct code act) }
  | .expectCondOp c act => { s with normal := add_rule s.normal (mkCondRule c act) }
  | .expectExOp ct code act => { s with exclusive := add_rule s.exclusive (mkEventRule ct code act) }
  | .expectExCondOp c act => { s with exclusive := add_rule s.exclusive (mkCondRule c act) }
  | .expectGloballyOp ct code act => { s with global := add_rule s.global (mkEventRule ct code act) }
  | .expectGloballyCondOp c act => { s with global := add_rule s.global (mkCondRule c act) }
  | .untilOp u => { s with until_condition := some u }
  | .untilEventOp ct code => { s with until_check := ct, until_check_event := code }
  | .setTimeoutOp ms => { s with timeout_milliseconds := ms, production_start := now }

/-- Running a step body's configuration calls in order. -/
def applyOps (s : ProdState) (now : Nat) (ops : List ConfigOp) : ProdState :=
  ops.foldl (fun st op => applyOp st now op) s

/-- One step of a protocol body: the configuration calls it makes before
its RUN_PRODUCTION yield. -/
structure Step where
  ops : List ConfigOp

/-- The boolean the pending perform would return if invoked now
(`run_action_only_once` returns true when no action is pending). -/
def pendingResult (s : ProdState) : Bool :=
  match s.action with
  | some a => a.result
  | none => true

/-- An observable occurrence during a system step: a perform invocation
(from `run_action_only_once`) or a rule firing (from `run_production`). -/
inductive Obs
  | performInv (id : Nat)
  | ruleFired (f : Fired)
deriving DecidableEq, Repr

/-- The body of the fired step branch: (on branch 0) BEGIN_PROTOCOL's
`set_current_protocol`, then the step's configuration calls, then
RUN_PRODUCTION — `run_action_only_once`, on false
`clear_current_protocol`, otherwise `state++` — returning
`protocol_success` (true; no ABORT_PROTOCOL in the modelled bodies). -/
def runStep (step : Step) (selfId : Nat) (s : SysState) (now : Nat) :
    SysState × Bool × List Obs :=
  let s0 := if s.protoCounter = 0 then { s with current_protocol := some selfId } else s
  let s1 := { s0 with prod := applyOps s0.prod now step.ops }
  let r := run_action_only_once s1.prod
  let inv : List Obs :=
    match r.2.2 with
    | some i => [Obs.performInv i]
    | none => []
  let s2 := { s1 with prod := r.1 }
  if r.2.1 then ({ s2 with protoCounter := s2.protoCounter + 1 }, true, inv)
  else (clear_current_protocol s2, true, inv)

/-- One call of a PROTOCOL-generated body (protocol.h macro expansion).
`state_compare` walks 0,1,... across the yield sites, so the branch whose
index equals the persistent counter fires: a step branch runs `runStep`
on the selected step, and the branch after the last step is END_PROTOCOL
(`state = 0; clear_current_protocol(); return protocol_success`).
A counter beyond that matches no branch and falls through.  Returns the
new state, the returned boolean, and the observations. -/
def protocolCall (steps : List Step) (selfId : Nat) (s : SysState) (now : Nat) :
    SysState × Bool × List Obs :=
  if h : s.protoCounter < steps.length then
    runStep (steps.get ⟨s.protoCounter, h⟩) selfId s now
  else if s.protoCounter = steps.length then
    (clear_current_protocol { s with protoCounter := 0 }, true, [])
  else (s, true, [])

/-- `run_current_protocol` from protocol.cpp: run the production engine
on the packet; when it returns 0 (production finished) call the current
protocol body, clearing it if the body reports failure. -/
def run_current_protocol (steps : List Step) (selfId : Nat) (s : SysState) (now : Nat)
    (pckt : hci_uart_pckt) : SysState × List Obs :=
  let r := run_production s.prod now pckt
  let s1 : SysState := { s with prod := r.state }
  let obs1 := r.fired.map Obs.ruleFired
  if r.ret = 0 then
    match s1.current_protocol with
    | some _ =>
        let pc := protocolCall steps selfId s1 now
        if pc.2.1 then (pc.1, obs1 ++ pc.2.2)
        else (clear_current_protocol pc.1, obs1 ++ pc.2.2)
    | none => (s1, obs1)
  else (s1, obs1)

/-! Specification-side characterisations of the rule loops, used to state
the precedence/firing claims. -/

/-- Indices of matching rules of a set, in insertion order. -/
def matchingIdxs (a : RuleArray) (e : hci_event_pckt) : List Nat :=
  (List.range a.num).filter fun i => ruleFires (a.data i) e

/-- The trace entry produced when rule `i` of set `a` fires. -/
def firedEntry (tag : RSet) (a : RuleArray) (i : Nat) : Fired :=
  ⟨tag, i, (a.data i).event_action⟩

/-- The trace of an all-matches pass over a set: every matching rule, in
insertion order. -/
def allFiredSpec (tag : RSet) (a : RuleArray) (e : hci_event_pckt) : List Fired :=
  (matchingIdxs a e).map (firedEntry tag a)

/-- The trace of a first-match pass over a set: the earliest matching
rule only (empty when none matches). -/
def firstFiredSpec (tag : RSet) (a : RuleArray) (e : hci_event_pckt) : List Fired :=
  match (matchingIdxs a e).head? with
  | some i => [firedEntry tag a i]
  | none => []

/-- Whether any rule of the set matches the event. -/
def anyMatch (a : RuleArray) (e : hci_event_pckt) : Bool :=
  (List.range a.num).any fun i => ruleFires (a.data i) e

/-- The cursor value left by a first-match pass: one past the firing
rule, or the set's count when nothing fired. -/
def cursorAfterFirst (a : RuleArray) (e : hci_event_pckt) : Nat :=
  match (matchingIdxs a e).head? with
  | some i => i + 1
  | none => a.num

/-- Whether any normal or exclusive rule matches the event (the rules
that count towards `rule_matched`). -/
def anyNormalOrExclusiveMatch (s : ProdState) (e : hci_event_pckt) : Bool :=
  anyMatch s.exclusive e || anyMatch s.normal e

/-! Concrete scenario inputs used by counterexamples and witnesses. -/

/-- A plain event with top-level code 5 and empty payload. -/
def evtFive : hci_event_pckt := ⟨5, []⟩

/-- An HCI event packet carrying `evtFive`. -/
def pktFive : hci_uart_pckt := ⟨HCI_EVENT_PKT, evtFive⟩

/-- A normal rule matching event code 5 with action id 1. -/
def nRuleFive : rule_t := ⟨.event_check, 5, none, some 1⟩

/-- C1 witness state: one matching exclusive rule, two normal rules (one
matching, one not), one matching global rule. -/
def w1State : ProdState :=
  { emptyProd with
    exclusive := add_rule emptyRules ⟨.event_check, 5, none, some 10⟩
    normal := add_rule (add_rule emptyRules ⟨.event_check, 5, none, some 11⟩)
      ⟨.event_check, 6, none, some 12⟩
    global := add_rule emptyRules ⟨.event_check, 5, none, some 13⟩ }

/-- C3 counterexample state: timeout configured with T = 0 starting at
clock 5, installed as the until condition (`set_timeout(0)` +
`until(timeout)`); no rules. -/
def c3State : ProdState :=
  { emptyProd with
    until_condition := some .timeoutFn
    timeout_milliseconds := 0
    production_start := 5 }

/-- C4 scenario: a first production with one matching normal rule and no
until (single-shot). -/
def c4State : ProdState := { emptyProd with normal := add_rule emptyRules nRuleFive }

/-- C4 scenario: the state after the first production completed (its
dispatch returned 0). -/
def c4Mid : ProdState := (run_production c4State 1 pktFive).state

/-- C5 counterexample state: a matching normal rule, a configured
100 ms timeout, no until (so the dispatch completes the production). -/
def c5State : ProdState :=
  { emptyProd with
    normal := add_rule emptyRules nRuleFive
    timeout_milliseconds := 100 }

/-- `n` consecutive `expect`-style adds to a rule array. -/
def addN : Nat → RuleArray → RuleArray
  | 0, a => a
  | n + 1, a => addN n (add_rule a nRuleFive)

/-- A rule array after twenty adds from the zero-initialised store: at
exact capacity (`num = MAX_RULES`), iteration cursor still 0. -/
def c7Full : RuleArray := addN 20 emptyRules

/-- C8 counterexample event: top-level code 5 (not a vendor event) whose
payload starts with the little-endian 16-bit value 0x1234. -/
def c8Event : hci_event_pckt := ⟨5, [52, 18]⟩

/-- C9 scenario: a protocol body with two productions whose performs
succeed. -/
def c9Steps : List Step :=
  [⟨[ConfigOp.performOp ⟨1, true⟩]⟩, ⟨[ConfigOp.performOp ⟨2, true⟩]⟩]

/-- C2 witness: a protocol body whose first step's perform fails and
which also configures a normal rule. -/
def cFailSteps : List Step :=
  [⟨[ConfigOp.performOp ⟨7, false⟩, ConfigOp.expectOp .event_check 5 (some 1)]⟩]

/-- C10 witness state: a matching exclusive rule with a NULL action, a
second matching exclusive rule after it, and a matching global rule. -/
def w10State : ProdState :=
  { emptyProd with
    exclusive := add_rule (add_rule emptyRules ⟨.event_check, 5, none, none⟩)
      ⟨.event_check, 5, none, some 21⟩
    global := add_rule emptyRules ⟨.event_check, 5, none, some 22⟩ }

/-! Helper lemmas: characterisations of the rule-iteration loops. -/

theorem allMatchLoop_eq (tag : RSet) (data : Nat → rule_t) (e : hci_event_pckt) :
    ∀ (fuel cur : Nat),
      allMatchLoop tag data e fuel cur =
        (((List.range' cur fuel).filter fun i => ruleFires (data i) e).map
            fun i => ⟨tag, i, (data i).event_action⟩,
          (List.range' cur fuel).any fun i => ruleFires (data i) e) := by
  intro fuel
  induction fuel with
  | zero => intro cur; simp [allMatchLoop]
  | succ n ih =>
      intro cur
      by_cases h : ruleFires (data cur) e
      · simp [allMatchLoop, List.range'_succ, List.filter_cons, h, ih (cur + 1)]
      · simp [allMatchLoop, List.range'_succ, List.filter_cons, h, ih (cur + 1)]

theorem firstMatchLoop_eq (tag : RSet) (data : Nat → rule_t) (e : hci_event_pckt) :
    ∀ (fuel cur : Nat),
      firstMatchLoop tag data e fuel cur =
        ((match ((List.range' cur fuel).filter fun i => ruleFires (data i) e).head? with
          | some i => [(⟨tag, i, (data i).event_action⟩ : Fired)]
          | none => []),
         (List.range' cur fuel).any fun i => ruleFires (data i) e,
         (match ((List.range' cur fuel).filter fun i => ruleFires (data i) e).head? with
          | some i => i + 1
          | none => cur + fuel)) := by
  intro fuel
  induction fuel with
  | zero => intro cur; simp [firstMatchLoop]
  | succ n ih =>
      intro cur
      by_cases h : ruleFires (data cur) e
      · simp [firstMatchLoop, List.range'_succ, List.filter_cons, h]
      · rw [firstMatchLoop]
        simp only [h, if_false, ih (cur + 1), List.range'_succ, List.filter_cons, List.any_cons]
        cases hh : ((List.range' (cur + 1) n).filter fun i => ruleFires (data i) e).head? with
        | none =>
            have hadd : cur + 1 + n = cur + (n + 1) := by omega
            simp [h, hh, hadd]
        | some i => simp [h, hh]

theorem allMatchLoop_spec (tag : RSet) (a : RuleArray) (e : hci_event_pckt) :
    allMatchLoop tag a.data e a.num 0 = (allFiredSpec tag a e, anyMatch a e) := by
  rw [allMatchLoop_eq, allFiredSpec, matchingIdxs, anyMatch, List.range_eq_range']
  rfl

theorem firstMatchLoop_spec (tag : RSet) (a : RuleArray) (e : hci_event_pckt) :
    firstMatchLoop tag a.data e a.num 0 =
      (firstFiredSpec tag a e, anyMatch a e, cursorAfterFirst a e) := by
  rw [firstMatchLoop_eq, firstFiredSpec, cursorAfterFirst, matchingIdxs, anyMatch,
    List.range_eq_range']
  simp [firedEntry]

theorem anyMatch_false_iff (a : RuleArray) (e : hci_event_pckt) :
    anyMatch a e = false ↔ matchingIdxs a e = [] := by
  rw [anyMatch, matchingIdxs]
  constructor
  · intro h
    rw [List.filter_eq_nil_iff]
    intro i hi
    have := List.any_eq_false.mp h i hi
    simpa using this
  · intro h
    rw [List.any_eq_false]
    intro i hi
    have := List.filter_eq_nil_iff.mp h i hi
    simpa using this

theorem firstFiredSpec_nil_iff (tag : RSet) (a : RuleArray) (e : hci_event_pckt) :
    firstFiredSpec tag a e = [] ↔ matchingIdxs a e = [] := by
  rw [firstFiredSpec]
  cases h : (matchingIdxs a e).head? with
  | none => simp [List.head?_eq_none_iff.mp h]
  | some i =>
      simp only []
      constructor
      · intro hc; cases hc
      · intro hc; rw [hc] at h; cases h

theorem allFiredSpec_nil_iff (tag : RSet) (a : RuleArray) (e : hci_event_pckt) :
    allFiredSpec tag a e = [] ↔ matchingIdxs a e = [] := by
  rw [allFiredSpec]
  simp

/-! Helper lemmas: characterisation of `run_production` on event packets. -/

theorem run_production_event (s : ProdState) (now : Nat) (p : hci_uart_pckt)
    (hp : p.ptype = HCI_EVENT_PKT) :
    run_production s now p =
      (let e := p.event
       let did1 := anyMatch s.exclusive e || anyMatch s.normal e
       let firedAll := firstFiredSpec .exc s.exclusive e ++ allFiredSpec .nrm s.normal e
         ++ (if did1 then [] else firstFiredSpec .glb s.global e)
       let did_rule := did1 || (if did1 then false else anyMatch s.global e)
       let s1 : ProdState :=
         { s with
           exclusive := { s.exclusive with cur := cursorAfterFirst s.exclusive e }
           normal := { s.normal with cur := s.normal.num }
           global := { s.global with
             cur := if did1 then s.global.cur else cursorAfterFirst s.global e }
           rule_matched := s.rule_matched || did1 }
       if finishedCond s now e then
         { ret := 0
           state :=
             { s1 with
               normal := rules_clear s1.normal
               exclusive := rules_clear s1.exclusive
               until_condition := none
               until_check := .no_check
               until_check_event := 0 }
           fired := firedAll }
       else if did_rule then { ret := 1, state := s1, fired := firedAll }
       else { ret := -1, state := s1, fired := firedAll }) := by
  unfold run_production
  rw [if_neg (by simp [hp])]
  simp only [firstMatchLoop_spec, allMatchLoop_spec]
  by_cases hd : anyMatch s.exclusive p.event || anyMatch s.normal p.event
  · simp [hd]
  · simp [hd]

theorem run_production_fired_eq (s : ProdState) (now : Nat) (p : hci_uart_pckt)
    (hp : p.ptype = HCI_EVENT_PKT) :
    (run_production s now p).fired =
      firstFiredSpec .exc s.exclusive p.event ++ allFiredSpec .nrm s.normal p.event
        ++ (if anyNormalOrExclusiveMatch s p.event then []
            else firstFiredSpec .glb s.global p.event) := by
  rw [run_production_event s now p hp]
  by_cases hf : finishedCond s now p.event <;>
    by_cases hd : anyMatch s.exclusive p.event || anyMatch s.normal p.event <;>
      by_cases hg : anyMatch s.global p.event <;>
        simp [hf, hd, hg, anyNormalOrExclusiveMatch]

theorem run_production_rule_matched_eq (s : ProdState) (now : Nat) (p : hci_uart_pckt)
    (hp : p.ptype = HCI_EVENT_PKT) :
    (run_production s now p).state.rule_matched =
      (s.rule_matched || anyNormalOrExclusiveMatch s p.event) := by
  rw [run_production_event s now p hp]
  by_cases hf : finishedCond s now p.event <;>
    by_cases hd : anyMatch s.exclusive p.event || anyMatch s.normal p.event <;>
      by_cases hg : anyMatch s.global p.event <;>
        simp [hf, hd, hg, anyNormalOrExclusiveMatch]

theorem run_production_ret_eq (s : ProdState) (now : Nat) (p : hci_uart_pckt)
    (hp : p.ptype = HCI_EVENT_PKT) :
    (run_production s now p).ret =
      (if finishedCond s now p.event then 0
       else if anyNormalOrExclusiveMatch s p.event || anyMatch s.global p.event then 1
       else -1) := by
  rw [run_production_event s now p hp]
  by_cases hf : finishedCond s now p.event <;>
    by_cases hd : anyMatch s.exclusive p.event || anyMatch s.normal p.event <;>
      by_cases hg : anyMatch s.global p.event <;>
        simp [hf, hd, hg, anyNormalOrExclusiveMatch]

theorem run_production_action_eq (s : ProdState) (now : Nat) (p : hci_uart_pckt) :
    (run_production s now p).state.action = s.action := by
  by_cases hp : p.ptype = HCI_EVENT_PKT
  · rw [run_production_event s now p hp]
    by_cases hf : finishedCond s now p.event <;>
      by_cases hd : anyMatch s.exclusive p.event || anyMatch s.normal p.event <;>
        by_cases hg : anyMatch s.global p.event <;>
          simp [hf, hd, hg]
  · unfold run_production
    rw [if_pos (by simpa using hp)]

theorem run_production_finish_state (s : ProdState) (now : Nat) (p : hci_uart_pckt)
    (hp : p.ptype = HCI_EVENT_PKT) (hf : finishedCond s now p.event = true) :
    (run_production s now p).state.normal.num = 0 ∧
    (run_production s now p).state.exclusive.num = 0 ∧
    (run_production s now p).state.until_condition = none ∧
    (run_production s now p).state.until_check = check_t.no_check ∧
    (run_production s now p).state.until_check_event = 0 ∧
    (run_production s now p).state.global.num = s.global.num ∧
    (run_production s now p).state.global.data = s.global.data ∧
    (run_production s now p).state.timeout_milliseconds = s.timeout_milliseconds ∧
    (run_production s now p).state.production_start = s.production_start := by
  rw [run_production_event s now p hp]
  by_cases hd : anyMatch s.exclusive p.event || anyMatch s.normal p.event <;>
    simp [hf, hd, rules_clear]

theorem run_production_not_finished_ret (s : ProdState) (now : Nat) (p : hci_uart_pckt)
    (hp : p.ptype = HCI_EVENT_PKT) (hf : finishedCond s now p.event = false) :
    (run_production s now p).ret ≠ 0 := by
  rw [run_production_ret_eq s now p hp, hf]
  by_cases hd : anyNormalOrExclusiveMatch s p.event || anyMatch s.global p.event <;>
    simp [hd]

theorem anyMatch_true_iff (a : RuleArray) (e : hci_event_pckt) :
    anyMatch a e = true ↔ matchingIdxs a e ≠ [] := by
  have hb : (anyMatch a e = true) ↔ ¬(anyMatch a e = false) := by
    cases anyMatch a e <;> simp
  rw [hb]
  exact not_congr (anyMatch_false_iff a e)

theorem firstFiredSpec_length_le_one (tag : RSet) (a : RuleArray) (e : hci_event_pckt) :
    (firstFiredSpec tag a e).length ≤ 1 := by
  rw [firstFiredSpec]
  cases (matchingIdxs a e).head? <;> simp

theorem head_filter_range' (p : Nat → Bool) :
    ∀ (fuel cur i : Nat), cur ≤ i → i < cur + fuel → p i = true →
      (∀ j, cur ≤ j → j < i → p j = false) →
      ((List.range' cur fuel).filter p).head? = some i := by
  intro fuel
  induction fuel with
  | zero => intro cur i h1 h2 _ _; omega
  | succ n ih =>
      intro cur i h1 h2 hpi hmin
      rw [List.range'_succ, List.filter_cons]
      rcases Nat.eq_or_lt_of_le h1 with he | hlt
      · rw [← he] at hpi
        simp only [hpi, if_true, List.head?_cons]
        rw [he]
      · have hc : p cur = false := hmin cur le_rfl hlt
        simp only [hc, Bool.false_eq_true, if_false]
        exact ih (cur + 1) i hlt (by omega) hpi (fun j hj1 hj2 => hmin j (by omega) hj2)

theorem firstFiredSpec_single (tag : RSet) (a : RuleArray) (e : hci_event_pckt) (i : Nat)
    (hi : i < a.num) (hfire : ruleFires (a.data i) e = true)
    (hmin : ∀ j, j < i → ruleFires (a.data j) e = false) :
    firstFiredSpec tag a e = [firedEntry tag a i] := by
  rw [firstFiredSpec, matchingIdxs, List.range_eq_range']
  rw [head_filter_range' (fun k => ruleFires (a.data k) e) a.num 0 i (Nat.zero_le i)
    (by omega) hfire (fun j _ hj2 => hmin j hj2)]

theorem mem_firstFiredSpec_set (tag : RSet) (a : RuleArray) (e : hci_event_pckt) (f : Fired)
    (hf : f ∈ firstFiredSpec tag a e) : f.set = tag := by
  rw [firstFiredSpec] at hf
  cases h : (matchingIdxs a e).head? with
  | none => rw [h] at hf; cases hf
  | some i =>
      rw [h] at hf
      rcases List.mem_singleton.mp hf with rfl
      rfl

theorem mem_allFiredSpec_set (tag : RSet) (a : RuleArray) (e : hci_event_pckt) (f : Fired)
    (hf : f ∈ allFiredSpec tag a e) : f.set = tag := by
  rw [allFiredSpec] at hf
  rcases List.mem_map.mp hf with ⟨i, _, rfl⟩
  rfl

theorem anyMatch_of_fires (a : RuleArray) (e : hci_event_pckt) (i : Nat)
    (hi : i < a.num) (hf : ruleFires (a.data i) e = true) : anyMatch a e = true := by
  rw [anyMatch, List.any_eq_true]
  exact ⟨i, List.mem_range.mpr hi, hf⟩

/-! The claims. -/

/-- C1: for every dispatched event packet, rules fire in this order: at
most the first matching exclusive rule's action is invoked, then the
action of every matching normal rule is invoked in insertion order, and
the global rules are consulted only if no exclusive or normal rule
matched, in which case at most the first matching global rule's action
is invoked.  The fired-rule trace of `run_production` equals the
first-match pass over the exclusives, then the all-matches pass over the
normals in insertion order, then (only when both of those are empty) the
first-match pass over the globals; first-match passes contribute at most
one entry. -/
theorem C1_rule_firing_order (s : ProdState) (now : Nat) (p : hci_uart_pckt)
    (hp : p.ptype = HCI_EVENT_PKT) :
    (run_production s now p).fired =
      firstFiredSpec .exc s.exclusive p.event ++ allFiredSpec .nrm s.normal p.event
        ++ (if firstFiredSpec .exc s.exclusive p.event = []
              ∧ allFiredSpec .nrm s.normal p.event = []
            then firstFiredSpec .glb s.global p.event else []) ∧
    (firstFiredSpec .exc s.exclusive p.event).length ≤ 1 ∧
    (firstFiredSpec .glb s.global p.event).length ≤ 1 := by
  refine ⟨?_, firstFiredSpec_length_le_one _ _ _, firstFiredSpec_length_le_one _ _ _⟩
  rw [run_production_fired_eq s now p hp]
  have hex := anyMatch_false_iff s.exclusive p.event
  have hnr := anyMatch_false_iff s.normal p.event
  by_cases he : anyMatch s.exclusive p.event <;> by_cases hn : anyMatch s.normal p.event
  · have h1 : ¬(firstFiredSpec RSet.exc s.exclusive p.event = []
        ∧ allFiredSpec RSet.nrm s.normal p.event = []) := by
      intro hc
      have := (anyMatch_true_iff s.exclusive p.event).mp he
      exact this ((firstFiredSpec_nil_iff RSet.exc s.exclusive p.event).mp hc.1)
    simp [anyNormalOrExclusiveMatch, he, hn, h1]
  · have h1 : ¬(firstFiredSpec RSet.exc s.exclusive p.event = []
        ∧ allFiredSpec RSet.nrm s.normal p.event = []) := by
      intro hc
      have := (anyMatch_true_iff s.exclusive p.event).mp he
      exact this ((firstFiredSpec_nil_iff RSet.exc s.exclusive p.event).mp hc.1)
    simp [anyNormalOrExclusiveMatch, he, hn, h1]
  · have h1 : ¬(firstFiredSpec RSet.exc s.exclusive p.event = []
        ∧ allFiredSpec RSet.nrm s.normal p.event = []) := by
      intro hc
      have := (anyMatch_true_iff s.normal p.event).mp hn
      exact this ((allFiredSpec_nil_iff RSet.nrm s.normal p.event).mp hc.2)
    simp [anyNormalOrExclusiveMatch, he, hn, h1]
  · have he2 : anyMatch s.exclusive p.event = false := by
      cases hb : anyMatch s.exclusive p.event
      · rfl
      · exact absurd hb he
    have hn2 : anyMatch s.normal p.event = false := by
      cases hb : anyMatch s.normal p.event
      · rfl
      · exact absurd hb hn
    have h1 : firstFiredSpec RSet.exc s.exclusive p.event = [] :=
      (firstFiredSpec_nil_iff RSet.exc s.exclusive p.event).mpr (hex.mp he2)
    have h2 : allFiredSpec RSet.nrm s.normal p.event = [] :=
      (allFiredSpec_nil_iff RSet.nrm s.normal p.event).mpr (hnr.mp hn2)
    simp [anyNormalOrExclusiveMatch, he2, hn2, h1, h2]

/-- C1 witness: the firing-order theorem instantiated at a state with one
matching exclusive rule, one matching and one non-matching normal rule,
and one matching global rule. -/
theorem C1_rule_firing_order_witness :
    pktFive.ptype = HCI_EVENT_PKT ∧
    ((run_production w1State 0 pktFive).fired =
      firstFiredSpec .exc w1State.exclusive pktFive.event
        ++ allFiredSpec .nrm w1State.normal pktFive.event
        ++ (if firstFiredSpec .exc w1State.exclusive pktFive.event = []
              ∧ allFiredSpec .nrm w1State.normal pktFive.event = []
            then firstFiredSpec .glb w1State.global pktFive.event else []) ∧
      (firstFiredSpec .exc w1State.exclusive pktFive.event).length ≤ 1 ∧
      (firstFiredSpec .glb w1State.global pktFive.event).length ≤ 1) :=
  ⟨rfl, C1_rule_firing_order w1State 0 pktFive rfl⟩

/-- C3 counterexample: a production configured with a zero timeout
(`set_timeout(0)` stamping start instant 5, `until(timeout)` installed)
does NOT complete on its first event when that event is dispatched at
clock 5, the same millisecond as the start: `run_production` returns -1
(no rule fired, production still running), not 0 (Done), because
`timeout` uses the strict comparison
`production_start + timeout_milliseconds < millis()`.  This falsifies
the claim's "with T equal to zero the production completes on the first
event regardless of rule outcome". -/
theorem C3_zero_timeout_counterexample :
    (run_production c3State 5 pktFive).ret = -1 ∧ ((-1 : Int) ≠ 0) :=
  ⟨by decide, by decide⟩

/-- C3 (amended): for a production whose timeout is configured (a
timeout of T milliseconds stamped at the start instant, with the
library's `timeout` function installed as the until condition), any
event dispatch at a clock instant strictly later than start + T
completes the production (dispatch returns 0 = Done) even if a
configured until event never arrived; in particular with T = 0 the
production completes on any event dispatched at a clock strictly past
the start instant, but not on an event in the same millisecond as the
start. -/
theorem C3_timeout_completes (s : ProdState) (now : Nat) (p : hci_uart_pckt)
    (hp : p.ptype = HCI_EVENT_PKT)
    (hu : s.until_condition = some UntilFn.timeoutFn)
    (ht : s.production_start + s.timeout_milliseconds < now) :
    (run_production s now p).ret = 0 := by
  rw [run_production_ret_eq s now p hp]
  have hf : finishedCond s now p.event = true := by
    unfold finishedCond
    rw [hu]
    simp [evalUntil, timeout, ht]
  rw [if_pos hf]

/-- C3 witness: the amended timeout theorem at the zero-timeout state,
one millisecond after the start instant. -/
theorem C3_timeout_completes_witness :
    pktFive.ptype = HCI_EVENT_PKT ∧
    c3State.until_condition = some UntilFn.timeoutFn ∧
    c3State.production_start + c3State.timeout_milliseconds < 6 ∧
    (run_production c3State 6 pktFive).ret = 0 :=
  ⟨rfl, rfl, by decide, C3_timeout_completes c3State 6 pktFive rfl rfl (by decide)⟩

/-- C4 counterexample: `met_expectations()` can return true although no
normal or exclusive rule fired during the current production.  A first
production fires a normal rule and completes (ret 0); the second
production (with empty rule sets) then also completes on a dispatch that
fires nothing, yet `met_expectations()` still reports true, because
end-of-production clears the rule counts but never resets
`rule_matched`. -/
theorem C4_met_expectations_counterexample :
    (run_production c4State 1 pktFive).ret = 0 ∧
    (run_production c4Mid 2 pktFive).ret = 0 ∧
    (run_production c4Mid 2 pktFive).fired = [] ∧
    met_expectations (run_production c4Mid 2 pktFive).state = true :=
  ⟨by decide, by decide, by decide, by decide⟩

/-- C4 (amended): `met_expectations()` returns the persistent
`rule_matched` flag: after a dispatch of an event packet it is true iff
it was already true before the dispatch (the flag is not reset at
production boundaries; only clearing the protocol or normal
expectations resets it) or some normal or exclusive rule matched the
dispatched event.  A global rule firing never makes it true, since the
flag is the OR of the previous value and the normal/exclusive matches
only. -/
theorem C4_met_expectations_eq (s : ProdState) (now : Nat) (p : hci_uart_pckt)
    (hp : p.ptype = HCI_EVENT_PKT) :
    met_expectations (run_production s now p).state =
      (s.rule_matched || anyNormalOrExclusiveMatch s p.event) :=
  run_production_rule_matched_eq s now p hp

/-- C4 witness: the amended met_expectations theorem at the
one-matching-normal-rule state. -/
theorem C4_met_expectations_eq_witness :
    pktFive.ptype = HCI_EVENT_PKT ∧
    met_expectations (run_production c4State 1 pktFive).state =
      (c4State.rule_matched || anyNormalOrExclusiveMatch c4State pktFive.event) :=
  ⟨rfl, C4_met_expectations_eq c4State 1 pktFive rfl⟩

/-- C5 counterexample: a dispatch that completes a production (returns
0 = Done) does NOT clear the timeout: `timeout_milliseconds` stays at
its configured value 100 (nothing in the completion path touches the
timeout fields).  Moreover `rule_matched` is not left unchanged by the
completing dispatch: it flips from false to true here because a normal
rule fired during the dispatch. -/
theorem C5_done_clears_counterexample :
    (run_production c5State 1 pktFive).ret = 0 ∧
    c5State.timeout_milliseconds = 100 ∧
    (run_production c5State 1 pktFive).state.timeout_milliseconds = 100 ∧
    c5State.rule_matched = false ∧
    (run_production c5State 1 pktFive).state.rule_matched = true :=
  ⟨by decide, by decide, by decide, by decide, by decide⟩

/-- C5 (amended): whenever a dispatch of an event packet completes a
production (returns 0 = Done), the normal rule count, the exclusive
rule count, the until predicate, and the until event match are cleared,
while the global rule set (contents and count) is unchanged and the
timeout configuration (`timeout_milliseconds` and `production_start`)
is NOT cleared; the `rule_matched` flag is not reset but keeps the
value it acquired during the dispatch (its previous value OR-ed with
whether any normal/exclusive rule matched). -/
theorem C5_done_clears (s : ProdState) (now : Nat) (p : hci_uart_pckt)
    (hp : p.ptype = HCI_EVENT_PKT)
    (hdone : (run_production s now p).ret = 0) :
    (run_production s now p).state.normal.num = 0 ∧
    (run_production s now p).state.exclusive.num = 0 ∧
    (run_production s now p).state.until_condition = none ∧
    (run_production s now p).state.until_check = check_t.no_check ∧
    (run_production s now p).state.until_check_event = 0 ∧
    (run_production s now p).state.global.num = s.global.num ∧
    (run_production s now p).state.global.data = s.global.data ∧
    (run_production s now p).state.timeout_milliseconds = s.timeout_milliseconds ∧
    (run_production s now p).state.production_start = s.production_start ∧
    (run_production s now p).state.rule_matched =
      (s.rule_matched || anyNormalOrExclusiveMatch s p.event) := by
  have hf : finishedCond s now p.event = true := by
    cases hb : finishedCond s now p.event
    · exact absurd hdone (run_production_not_finished_ret s now p hp hb)
    · rfl
  have h := run_production_finish_state s now p hp hf
  exact ⟨h.1, h.2.1, h.2.2.1, h.2.2.2.1, h.2.2.2.2.1, h.2.2.2.2.2.1, h.2.2.2.2.2.2.1,
    h.2.2.2.2.2.2.2.1, h.2.2.2.2.2.2.2.2, run_production_rule_matched_eq s now p hp⟩

/-- C5 witness: the amended end-of-production theorem at the concrete
completing dispatch with a configured 100 ms timeout. -/
theorem C5_done_clears_witness :
    pktFive.ptype = HCI_EVENT_PKT ∧
    (run_production c5State 1 pktFive).ret = 0 ∧
    ((run_production c5State 1 pktFive).state.normal.num = 0 ∧
     (run_production c5State 1 pktFive).state.exclusive.num = 0 ∧
     (run_production c5State 1 pktFive).state.until_condition = none ∧
     (run_production c5State 1 pktFive).state.until_check = check_t.no_check ∧
     (run_production c5State 1 pktFive).state.until_check_event = 0 ∧
     (run_production c5State 1 pktFive).state.global.num = c5State.global.num ∧
     (run_production c5State 1 pktFive).state.global.data = c5State.global.data ∧
     (run_production c5State 1 pktFive).state.timeout_milliseconds
       = c5State.timeout_milliseconds ∧
     (run_production c5State 1 pktFive).state.production_start
       = c5State.production_start ∧
     (run_production c5State 1 pktFive).state.rule_matched =
       (c5State.rule_matched || anyNormalOrExclusiveMatch c5State pktFive.event)) :=
  ⟨rfl, by decide, C5_done_clears c5State 1 pktFive rfl (by decide)⟩

/-- C6: for every production with neither an until predicate nor an
until event match configured, a single dispatch of an event packet
completes it: `run_production` returns 0 (Done) on the first event
seen, regardless of whether any rule matched. -/
theorem C6_no_until_single_shot (s : ProdState) (now : Nat) (p : hci_uart_pckt)
    (hp : p.ptype = HCI_EVENT_PKT)
    (hu : s.until_condition = none)
    (hc : s.until_check = check_t.no_check) :
    (run_production s now p).ret = 0 := by
  rw [run_production_ret_eq s now p hp]
  have hf : finishedCond s now p.event = true := by
    unfold finishedCond
    rw [hu, hc]
    simp
  rw [if_pos hf]

/-- C6 witness: the single-shot theorem at the zero-initialised
production state. -/
theorem C6_no_until_single_shot_witness :
    pktFive.ptype = HCI_EVENT_PKT ∧
    emptyProd.until_condition = none ∧
    emptyProd.until_check = check_t.no_check ∧
    (run_production emptyProd 0 pktFive).ret = 0 :=
  ⟨rfl, rfl, rfl, C6_no_until_single_shot emptyProd 0 pktFive rfl rfl rfl⟩

/-- C7 (code bug): the capacity guard of `new_rule` tests the iteration
cursor `current_rule` instead of the count `num_rules`.  Starting from
the zero-initialised store and adding twenty rules (reaching exact
capacity, `num = MAX_RULES`, with the cursor still 0), the next add is
NOT rejected: `new_rule` hands out slot 20 (one past the end of the
20-entry C array) and the count grows to 21.  The claim (reject at
capacity, set unchanged) matches the function's own error message and
the spec; the code checks the wrong variable. -/
theorem C7_capacity_not_enforced :
    c7Full.num = MAX_RULES ∧
    c7Full.cur = 0 ∧
    (new_rule c7Full).1 = some MAX_RULES ∧
    (add_rule c7Full nRuleFive).num = MAX_RULES + 1 :=
  ⟨by decide, by decide, by decide, by decide⟩

/-- C8 counterexample: the `ecode` (vendor event code) matcher reports a
match on an event whose top-level event code is 5 — not the vendor
event code 255 — because the `ecode` branch of `check4event` reads the
16-bit code from the payload without checking `evt == EVT_VENDOR`. -/
theorem C8_vendor_ecode_counterexample :
    check4event c8Event check_t.ecode 4660 = true ∧ c8Event.evt ≠ EVT_VENDOR :=
  ⟨by decide, by decide⟩

/-- C8 (amended): the matcher with check kind `ecode` compares the
little-endian 16-bit value at offset 0 of the event payload with the
rule's code and matches exactly when they are equal; it does not
inspect the top-level event code at all, so it is indifferent to
whether the event is vendor-specific. -/
theorem C8_ecode_match_ignores_event_type (e : hci_event_pckt) (code v : Nat) :
    check4event { e with evt := v } check_t.ecode code = check4event e check_t.ecode code ∧
    (check4event e check_t.ecode code = true ↔
      e.data.getD 0 0 + 256 * e.data.getD 1 0 = code) := by
  constructor
  · rfl
  · simp [check4event, ecodeOf]

/-- C2: the perform action is invoked at most once per production and
strictly before any rule evaluation within that production; a failed
perform aborts the protocol.  Formally: (1) when the pending perform of
the step being run evaluates to false, the protocol-body call leaves
`current_protocol` cleared, the normal and exclusive rule counts 0, and
both until configurations cleared (RUN_PRODUCTION calls
`clear_current_protocol`); (2) `run_action_only_once` always consumes
the pending action, so a second call invokes nothing — at most one
invocation per production; (3) with no pending action no invocation
happens; (4) `run_production` (the only place rules are evaluated)
never touches the pending perform — perform runs only inside the body
call that configures the production, which precedes every dispatch that
evaluates its rules. -/
theorem C2_perform_once_and_abort (steps : List Step) (selfId : Nat) (s : SysState) (now : Nat)
    (h : s.protoCounter < steps.length)
    (hfail : pendingResult (applyOps s.prod now (steps.get ⟨s.protoCounter, h⟩).ops) = false) :
    ((protocolCall steps selfId s now).1.current_protocol = none ∧
     (protocolCall steps selfId s now).1.prod.normal.num = 0 ∧
     (protocolCall steps selfId s now).1.prod.exclusive.num = 0 ∧
     (protocolCall steps selfId s now).1.prod.until_condition = none ∧
     (protocolCall steps selfId s now).1.prod.until_check = check_t.no_check) ∧
    (∀ q : ProdState, (run_action_only_once q).1.action = none) ∧
    (∀ q : ProdState, q.action = none → (run_action_only_once q).2.2 = none) ∧
    (∀ (q : ProdState) (n2 : Nat) (p2 : hci_uart_pckt),
      (run_production q n2 p2).state.action = q.action) := by
  refine ⟨?_, ?_, ?_, ?_⟩
  · have hpc : protocolCall steps selfId s now
        = runStep (steps.get ⟨s.protoCounter, h⟩) selfId s now := by
      unfold protocolCall
      rw [dif_pos h]
    rw [hpc]
    set step := steps.get ⟨s.protoCounter, h⟩ with hstep
    by_cases h0 : s.protoCounter = 0 <;>
      cases ha : (applyOps s.prod now step.ops).action with
      | none => simp [pendingResult, ha] at hfail
      | some a =>
          have har : a.result = false := by simpa [pendingResult, ha] using hfail
          simp [runStep, h0, run_action_only_once, ha, har,
            clear_current_protocol, clear_expectations, clear_exclusive_expectations,
            until_clear, until_event_clear, rules_clear]
  · intro q
    cases hq : q.action <;> simp [run_action_only_once, hq]
  · intro q hq
    simp [run_action_only_once, hq]
  · intro q n2 p2
    exact run_production_action_eq q n2 p2

/-- C2 witness: a one-step protocol whose perform fails; the call clears
the current protocol, the rules it configured, and the untils. -/
theorem C2_perform_once_and_abort_witness :
    emptySys.protoCounter < cFailSteps.length ∧
    pendingResult (applyOps emptySys.prod 0
      (cFailSteps.get ⟨emptySys.protoCounter, by decide⟩).ops) = false ∧
    (protocolCall cFailSteps 1 emptySys 0).1.current_protocol = none ∧
    (protocolCall cFailSteps 1 emptySys 0).1.prod.normal.num = 0 :=
  ⟨by decide, by decide,
    (C2_perform_once_and_abort cFailSteps 1 emptySys 0 (by decide) (by decide)).1.1,
    (C2_perform_once_and_abort cFailSteps 1 emptySys 0 (by decide) (by decide)).1.2.1⟩

/-- C9 counterexample: calling a protocol body twice with zero events
dispatched in between DOES advance its step index — the first call runs
step 0 and advances the counter to 1, the second runs step 1 and
advances it to 2 — because every RUN_PRODUCTION yield increments the
static `state` counter whenever the pending perform succeeds, with no
guard requiring an intervening event-triggered production completion. -/
theorem C9_step_counter_counterexample :
    emptySys.protoCounter = 0 ∧
    (protocolCall c9Steps 1 emptySys 0).1.protoCounter = 1 ∧
    (protocolCall c9Steps 1 (protocolCall c9Steps 1 emptySys 0).1 0).1.protoCounter = 2 :=
  ⟨rfl, by decide, by decide⟩

/-- C9 (amended): each call of a protocol body runs the step selected by
the persistent step counter and, whenever that step's perform succeeds
(or no perform is pending), advances the counter by one — even with zero
events dispatched in between, so repeated calls are NOT idempotent on
the step counter.  Within the framework the body is invoked only at
kick-off and by the dispatcher on an event-triggered production
completion, which is what keeps stepping event-driven in practice. -/
theorem C9_call_advances (steps : List Step) (selfId : Nat) (s : SysState) (now : Nat)
    (h : s.protoCounter < steps.length)
    (hok : pendingResult (applyOps s.prod now (steps.get ⟨s.protoCounter, h⟩).ops) = true) :
    (protocolCall steps selfId s now).1.protoCounter = s.protoCounter + 1 := by
  have hpc : protocolCall steps selfId s now
      = runStep (steps.get ⟨s.protoCounter, h⟩) selfId s now := by
    unfold protocolCall
    rw [dif_pos h]
  rw [hpc]
  set step := steps.get ⟨s.protoCounter, h⟩ with hstep
  by_cases h0 : s.protoCounter = 0 <;>
    cases ha : (applyOps s.prod now step.ops).action with
    | none => simp [runStep, h0, run_action_only_once, ha]
    | some a =>
        have har : a.result = true := by simpa [pendingResult, ha] using hok
        simp [runStep, h0, run_action_only_once, ha, har]

/-- C9 witness: the advance theorem at the two-step protocol with a
succeeding perform. -/
theorem C9_call_advances_witness :
    emptySys.protoCounter < c9Steps.length ∧
    pendingResult (applyOps emptySys.prod 0
      (c9Steps.get ⟨emptySys.protoCounter, by decide⟩).ops) = true ∧
    (protocolCall c9Steps 1 emptySys 0).1.protoCounter = emptySys.protoCounter + 1 :=
  ⟨by decide, by decide, C9_call_advances c9Steps 1 emptySys 0 (by decide) (by decide)⟩

/-- C10: a rule whose check matches the dispatched event but whose
action callback is NULL still counts as having fired.  For an exclusive
rule: when rule i is the earliest matching exclusive rule and its action
is NULL, the trace records exactly the entry (exclusive, i, no action)
followed by the normal matches — later exclusive rules do not fire —
`rule_matched` is set, and no global rule appears in the trace.  For a
normal rule (second conjunct, over arbitrary states): any matching
normal rule — action or not — sets `rule_matched` and suppresses the
global rules for that event. -/
theorem C10_null_action_counts (s : ProdState) (now : Nat) (p : hci_uart_pckt) (i : Nat)
    (hp : p.ptype = HCI_EVENT_PKT)
    (hi : i < s.exclusive.num)
    (hfire : ruleFires (s.exclusive.data i) p.event = true)
    (hprev : ∀ j, j < i → ruleFires (s.exclusive.data j) p.event = false)
    (hact : (s.exclusive.data i).event_action = none) :
    ((run_production s now p).fired =
        (⟨RSet.exc, i, none⟩ : Fired) :: allFiredSpec .nrm s.normal p.event ∧
      (run_production s now p).state.rule_matched = true ∧
      ∀ f ∈ (run_production s now p).fired, f.set ≠ RSet.glb) ∧
    (∀ (q : ProdState) (n2 : Nat) (p2 : hci_uart_pckt) (j : Nat),
      p2.ptype = HCI_EVENT_PKT → j < q.normal.num →
      ruleFires (q.normal.data j) p2.event = true →
        (run_production q n2 p2).state.rule_matched = true ∧
        ∀ f ∈ (run_production q n2 p2).fired, f.set ≠ RSet.glb) := by
  have hany : anyMatch s.exclusive p.event = true := anyMatch_of_fires s.exclusive p.event i hi hfire
  have hfirst : firstFiredSpec RSet.exc s.exclusive p.event = [firedEntry RSet.exc s.exclusive i] :=
    firstFiredSpec_single RSet.exc s.exclusive p.event i hi hfire hprev
  have hentry : firedEntry RSet.exc s.exclusive i = (⟨RSet.exc, i, none⟩ : Fired) := by
    rw [firedEntry, hact]
  have hne : anyNormalOrExclusiveMatch s p.event = true := by
    rw [anyNormalOrExclusiveMatch, hany]
    rfl
  have htrace : (run_production s now p).fired =
      (⟨RSet.exc, i, none⟩ : Fired) :: allFiredSpec RSet.nrm s.normal p.event := by
    rw [run_production_fired_eq s now p hp, hfirst, hentry, hne]
    simp
  refine ⟨⟨htrace, ?_, ?_⟩, ?_⟩
  · rw [run_production_rule_matched_eq s now p hp, hne]
    simp
  · intro f hf
    rw [htrace] at hf
    rcases List.mem_cons.mp hf with rfl | hf2
    · intro hc; cases hc
    · rw [mem_allFiredSpec_set RSet.nrm s.normal p.event f hf2]
      intro hc; cases hc
  · intro q n2 p2 j hp2 hj hjfire
    have hany2 : anyMatch q.normal p2.event = true := anyMatch_of_fires q.normal p2.event j hj hjfire
    have hne2 : anyNormalOrExclusiveMatch q p2.event = true := by
      rw [anyNormalOrExclusiveMatch, hany2]
      simp
    constructor
    · rw [run_production_rule_matched_eq q n2 p2 hp2, hne2]
      simp
    · intro f hf
      rw [run_production_fired_eq q n2 p2 hp2, hne2] at hf
      simp only [if_true, List.append_nil] at hf
      rcases List.mem_append.mp hf with hf1 | hf2
      · rw [mem_firstFiredSpec_set RSet.exc q.exclusive p2.event f hf1]
        intro hc; cases hc
      · rw [mem_allFiredSpec_set RSet.nrm q.normal p2.event f hf2]
        intro hc; cases hc

/-- C10 witness: a state whose first exclusive rule matches with a NULL
action, a second matching exclusive rule after it, and a matching global
rule: the trace holds only the NULL-action firing, `rule_matched` is
set, and the global never fires. -/
theorem C10_null_action_counts_witness :
    pktFive.ptype = HCI_EVENT_PKT ∧
    (0 < w10State.exclusive.num ∧
     ruleFires (w10State.exclusive.data 0) pktFive.event = true ∧
     (w10State.exclusive.data 0).event_action = none) ∧
    ((run_production w10State 0 pktFive).fired =
        (⟨RSet.exc, 0, none⟩ : Fired) :: allFiredSpec .nrm w10State.normal pktFive.event ∧
      (run_production w10State 0 pktFive).state.rule_matched = true ∧
      ∀ f ∈ (run_production w10State 0 pktFive).fired, f.set ≠ RSet.glb) :=
  ⟨rfl, ⟨by decide, by decide, by decide⟩,
    (C10_null_action_counts w10State 0 pktFive 0 rfl (by decide) (by decide)
      (fun j hj => absurd hj (Nat.not_lt_zero j)) (by decide)).1⟩

end BLEProtocols
